import Mathlib

set_option autoImplicit false

/-!
Shallow embedding of the phishing-detection backend (`src/backend/app.py`)
and proofs about its specification.

Python strings are modelled as Lean `String`s (character lists); machine
arithmetic does not occur in the embedded fragment.  Fallible Python code
(code that can raise) is embedded in `Except PyErr`.  Probabilities coming
out of the softmax are modelled as rationals.
-/

namespace App

/-- Python exceptions that the embedded fragment can raise. -/
inductive PyErr where
  | keyError (key : String)
  | binasciiError (msg : String)
  | valueError (msg : String)
deriving DecidableEq, Repr

/-- `str(e)` for the modelled exceptions. -/
def PyErr.toMsg : PyErr → String
  | .keyError k => k
  | .binasciiError m => m
  | .valueError m => m

/-! ### String helpers mirroring the Python operations used in `app.py` -/

/-- Python `str.lower()` restricted to ASCII letters (all header names,
domains and flag strings handled by this service are ASCII). -/
def pyLower (s : String) : String := String.mk (s.data.map Char.toLower)

/-- `a` is a prefix of `b` (on character lists). -/
def isPre : List Char → List Char → Bool
  | [], _ => true
  | _ :: _, [] => false
  | a :: as, b :: bs => a = b && isPre as bs

/-- Python substring test `sub in s`, on character lists. -/
def subStr (sub : List Char) : List Char → Bool
  | [] => sub.isEmpty
  | c :: rest => isPre sub (c :: rest) || subStr sub rest

/-- Python `s.split(c)` for a one-character separator. -/
def splitOnChar (c : Char) : List Char → List (List Char)
  | [] => [[]]
  | x :: xs =>
    if x = c then [] :: splitOnChar c xs
    else
      match splitOnChar c xs with
      | [] => [[x]]
      | h :: t => (x :: h) :: t

/-! ### The regex `re.search(r"<(.+?)>", sender)`

The pattern starts with the literal `<`, lazily takes at least one
non-newline character, and closes at the first following `>`.  `re.search`
tries start positions left to right. -/

/-- Scan for the closing `>` after at least one content character has been
taken; content characters must not be newlines.  `acc` holds the content
read so far, reversed. -/
def angleGo : List Char → List Char → Option (List Char)
  | [], _ => none
  | c :: rest, acc =>
    if c = '>' then some acc.reverse
    else if c = '\n' then none
    else angleGo rest (c :: acc)

/-- Try to match `(.+?)>` on the characters following a `<`. -/
def angleTry : List Char → Option (List Char)
  | [] => none
  | c :: rest => if c = '\n' then none else angleGo rest [c]

/-- `re.search(r"<(.+?)>", s)`: the group of the first match, if any. -/
def angleSearch : List Char → Option (List Char)
  | [] => none
  | c :: rest =>
    if c = '<' then
      match angleTry rest with
      | some g => some g
      | none => angleSearch rest
    else angleSearch rest

/-! ### `analyze_sender` (app.py lines 71-97) -/

/-- One Gmail header object `{"name": ..., "value": ...}`. -/
structure Header where
  name : String
  value : String
deriving DecidableEq, Repr

/-- The dictionary returned by `analyze_sender`. -/
structure SenderAnalysis where
  sender : String
  domain : String
  flags : List String
deriving DecidableEq, Repr

/-- `next((h["value"] for h in headers if h["name"].lower() == "from"), "")` -/
def fromValue (headers : List Header) : String :=
  match headers.find? (fun h => pyLower h.name == "from") with
  | some h => h.value
  | none => ""

/-- `match.group(1) if match else sender` for `re.search(r"<(.+?)>", sender)`. -/
def extractEmail (sender : String) : String :=
  match angleSearch sender.data with
  | some g => String.mk g
  | none => sender

/-- `email.split("@")[-1].lower() if "@" in email else "unknown"` -/
def extractDomain (email : String) : String :=
  if email.data.contains '@' then
    pyLower (String.mk ((splitOnChar '@' email.data).getLastD []))
  else "unknown"

/-- `re.search(r"(paypa1|netfl1x|g00gle|faceb00k)", domain)` fires iff one of
the four alternatives occurs as a substring of the domain. -/
def typoMatch (domain : String) : Bool :=
  subStr "paypa1".data domain.data || subStr "netfl1x".data domain.data ||
  subStr "g00gle".data domain.data || subStr "faceb00k".data domain.data

/-- `domain.split(".")[-1] in ["xyz", "top", "ru", "cn"]` -/
def tldSuspicious (domain : String) : Bool :=
  ["xyz", "top", "ru", "cn"].contains (String.mk ((splitOnChar '.' domain.data).getLastD []))

/-- `domain.count(".") > 3` -/
def subdomainExcess (domain : String) : Bool :=
  decide (3 < domain.data.count '.')

/-- The fixed whitelist of trusted domains. -/
def whitelist : List String :=
  ["google.com", "microsoft.com", "github.com", "apple.com", "linkedin.com"]

/-- The flag list accumulated by rules 1-4, in source order. -/
def senderFlags (domain : String) : List String :=
  (if typoMatch domain then ["Possible typosquatting"] else []) ++
  (if tldSuspicious domain then ["Suspicious TLD"] else []) ++
  (if subdomainExcess domain then ["Too many subdomains"] else []) ++
  (if whitelist.contains domain then ["✅ Whitelisted domain"] else [])

/-- `flags if flags else ["None"]` applied to the rule output for a domain. -/
def flagsOfDomain (domain : String) : List String :=
  if senderFlags domain = [] then ["None"] else senderFlags domain

/-- `analyze_sender(headers)` (app.py lines 71-97). -/
def analyze_sender (headers : List Header) : SenderAnalysis :=
  let sender := fromValue headers
  let email := extractEmail sender
  let domain := extractDomain email
  { sender := email, domain := domain, flags := flagsOfDomain domain }

/-! ### `predict_body` (app.py lines 57-69)

Tokenisation and the forward pass live in external libraries; the embedded
fragment starts from the softmax output, a probability pair modelled as
exact rationals.  `torch.softmax` guarantees nonnegative entries summing
to 1, which the theorems take as hypotheses. -/

/-- `LABEL_MAP = {0: "Legitimate", 1: "Phishing"}` -/
def LABEL_MAP (i : ℕ) : String := if i = 0 then "Legitimate" else "Phishing"

/-- `np.argmax` on the probability pair: index of the maximum, first index
on ties. -/
def argmax2 (p0 p1 : ℚ) : ℕ := if p0 < p1 then 1 else 0

/-- Indexing `probs[i]` for the two-element probability vector. -/
def probGet (p0 p1 : ℚ) (i : ℕ) : ℚ := if i = 0 then p0 else p1

/-- Python `round` to an integer: half-to-even (banker's rounding). -/
def roundHalfEven (q : ℚ) : ℤ :=
  if q - ⌊q⌋ < 1/2 then ⌊q⌋
  else if 1/2 < q - ⌊q⌋ then ⌊q⌋ + 1
  else if ⌊q⌋ % 2 = 0 then ⌊q⌋ else ⌊q⌋ + 1

/-- Python `round(x, 2)`. -/
def pyRound2 (q : ℚ) : ℚ := (roundHalfEven (q * 100) : ℚ) / 100

/-- The dictionary `{"prediction": ..., "confidence": ...}`. -/
structure PredictResult where
  prediction : String
  confidence : ℚ
deriving DecidableEq, Repr

/-- `predict_body` after the softmax (app.py lines 66-69):
`pred_idx = int(probs.argmax()); label = LABEL_MAP[pred_idx];
confidence = round(float(probs[pred_idx]) * 100, 2)`. -/
def predict_body (p0 p1 : ℚ) : PredictResult :=
  let pred_idx := argmax2 p0 p1
  { prediction := LABEL_MAP pred_idx
    confidence := pyRound2 (probGet p0 p1 pred_idx * 100) }

/-! ### Gmail payloads and `extract_body` (app.py lines 99-108)

A Gmail message payload is a JSON object whose keys may be absent; absent
keys are modelled with `Option`.  `part["mimeType"]` and `part["body"]`
raise `KeyError` when the key is missing, mirrored by `Except`. -/

/-- The `"body"` object of a payload or part: `{"data": ...}` with the
`data` key possibly absent. -/
structure PartBody where
  data : Option String
deriving DecidableEq, Repr

/-- A (recursive) Gmail payload object.  The four modelled keys are
`mimeType`, `body`, `parts` and `headers`, each possibly absent. -/
inductive Payload where
  | mk (mimeType : Option String) (body : Option PartBody)
       (parts : Option (List Payload)) (headers : Option (List Header))

/-- The `"mimeType"` key. -/
def Payload.mimeType : Payload → Option String
  | .mk m _ _ _ => m

/-- The `"body"` key. -/
def Payload.body : Payload → Option PartBody
  | .mk _ b _ _ => b

/-- The `"parts"` key. -/
def Payload.parts : Payload → Option (List Payload)
  | .mk _ _ p _ => p

/-- The `"headers"` key. -/
def Payload.headers : Payload → Option (List Header)
  | .mk _ _ _ h => h

/-- The value of a base64url character after the urlsafe `-_ → +/`
translation, `none` for characters outside the alphabet. -/
def b64Val (c : Char) : Option ℕ :=
  if 'A' ≤ c ∧ c ≤ 'Z' then some (c.toNat - 65)
  else if 'a' ≤ c ∧ c ≤ 'z' then some (c.toNat - 97 + 26)
  else if '0' ≤ c ∧ c ≤ '9' then some (c.toNat - 48 + 52)
  else if c = '+' ∨ c = '-' then some 62
  else if c = '/' ∨ c = '_' then some 63
  else none

/-- The decoding loop of `binascii.a2b_base64` (non-strict mode, as called
by `base64.b64decode`): invalid characters are skipped, a quad of data
characters emits three bytes, and a `=` ends decoding successfully once at
least two data characters of the current quad and enough padding have been
seen; leftover data characters at the end raise `binascii.Error`.
Arguments: remaining input, output bytes, pending quad (length ≤ 3),
count of padding characters seen since the last data character. -/
def b64Loop : List Char → List ℕ → List ℕ → ℕ → Except PyErr (List ℕ)
  | [], out, quad, _ =>
    if quad.length = 0 then .ok out
    else if quad.length = 1 then
      .error (.binasciiError "Invalid base64-encoded string: number of data characters cannot be 1 more than a multiple of 4")
    else .error (.binasciiError "Incorrect padding")
  | ch :: rest, out, quad, pads =>
    if ch = '=' then
      if 2 ≤ quad.length ∧ 4 ≤ quad.length + (pads + 1) then
        match quad with
        | [a, b] => .ok (out ++ [a * 4 + b / 16])
        | [a, b, c] => .ok (out ++ [a * 4 + b / 16, b % 16 * 16 + c / 4])
        | _ => .ok out
      else b64Loop rest out quad (pads + 1)
    else
      match b64Val ch with
      | none => b64Loop rest out quad pads
      | some v =>
        match quad with
        | [a, b, c] => b64Loop rest (out ++ [a * 4 + b / 16, b % 16 * 16 + c / 4, c % 4 * 64 + v]) [] 0
        | _ => b64Loop rest out (quad ++ [v]) 0

/-- `base64.urlsafe_b64decode` on a `str` argument: the string must be
ASCII, then the non-strict base64 loop runs on its characters. -/
def urlsafe_b64decode (s : String) : Except PyErr (List ℕ) :=
  if s.data.all (fun c => c.toNat < 128) then b64Loop s.data [] [] 0
  else .error (.valueError "string argument should contain only ASCII characters")

/-- Is `b` a UTF-8 continuation byte? -/
def utf8Cont (b : ℕ) : Bool := 128 ≤ b && b < 192

/-- The admissible range of the second byte for a given 3- or 4-byte lead
byte (excluding overlong encodings, surrogates and values above U+10FFFF). -/
def utf8Second (b1 b2 : ℕ) : Bool :=
  if b1 = 224 then 160 ≤ b2 && b2 ≤ 191
  else if b1 = 237 then 128 ≤ b2 && b2 ≤ 159
  else if b1 = 240 then 144 ≤ b2 && b2 ≤ 191
  else if b1 = 244 then 128 ≤ b2 && b2 ≤ 143
  else utf8Cont b2

/-- The decoding loop of `bytes.decode("utf-8", errors="ignore")`: strict
UTF-8 decoding where every invalid sequence is dropped (the maximal valid
subpart is skipped and decoding resumes at the next byte), never raising.
`fuel` only drives the recursion: one unit is spent per consumed lead
byte, and every step consumes at least one byte, so `fuel ≥ l.length`
reproduces the Python decoder exactly. -/
def utf8Go : ℕ → List ℕ → List Char
  | 0, _ => []
  | _, [] => []
  | fuel + 1, b1 :: rest =>
    if b1 < 128 then Char.ofNat b1 :: utf8Go fuel rest
    else if 194 ≤ b1 && b1 ≤ 223 then
      match rest with
      | [] => []
      | b2 :: rest2 =>
        if utf8Cont b2 then
          Char.ofNat ((b1 - 192) * 64 + (b2 - 128)) :: utf8Go fuel rest2
        else utf8Go fuel rest
    else if 224 ≤ b1 && b1 ≤ 239 then
      match rest with
      | [] => []
      | b2 :: rest2 =>
        if utf8Second b1 b2 then
          match rest2 with
          | [] => []
          | b3 :: rest3 =>
            if utf8Cont b3 then
              Char.ofNat (((b1 - 224) * 64 + (b2 - 128)) * 64 + (b3 - 128)) :: utf8Go fuel rest3
            else utf8Go fuel rest2
        else utf8Go fuel rest
    else if 240 ≤ b1 && b1 ≤ 244 then
      match rest with
      | [] => []
      | b2 :: rest2 =>
        if utf8Second b1 b2 then
          match rest2 with
          | [] => []
          | b3 :: rest3 =>
            if utf8Cont b3 then
              match rest3 with
              | [] => []
              | b4 :: rest4 =>
                if utf8Cont b4 then
                  Char.ofNat ((((b1 - 240) * 64 + (b2 - 128)) * 64 + (b3 - 128)) * 64 + (b4 - 128)) :: utf8Go fuel rest4
                else utf8Go fuel rest3
            else utf8Go fuel rest2
        else utf8Go fuel rest
    else utf8Go fuel rest

/-- `bytes.decode("utf-8", errors="ignore")` on a byte list. -/
def utf8DecodeIgnore (l : List ℕ) : List Char := utf8Go l.length l

/-- `base64.urlsafe_b64decode(data).decode("utf-8", errors="ignore")` -/
def decodeB64Utf8 (data : String) : Except PyErr String :=
  (urlsafe_b64decode data).map (fun bs => String.mk (utf8DecodeIgnore bs))

/-- The `for part in payload["parts"]` loop of `extract_body`: returns the
decoded first `text/plain` part if one occurs in the list, `none` if the
loop falls through.  `part["mimeType"]` raises on a part without that key;
`part["body"].get("data", "")` raises only when `body` is missing. -/
def scanParts : List Payload → Except PyErr (Option String)
  | [] => .ok none
  | p :: rest =>
    match p.mimeType with
    | none => .error (.keyError "mimeType")
    | some mt =>
      if mt = "text/plain" then
        match p.body with
        | none => .error (.keyError "body")
        | some pb => (decodeB64Utf8 (pb.data.getD "")).map some
      else scanParts rest

/-- `if "body" in payload and "data" in payload["body"]: return
base64.urlsafe_b64decode(payload["body"]["data"]).decode("utf-8",
errors="ignore")` followed by `return ""`. -/
def topLevelBody (p : Payload) : Except PyErr String :=
  match p.body with
  | some pb =>
    match pb.data with
    | some d => decodeB64Utf8 d
    | none => .ok ""
  | none => .ok ""

/-- `extract_body(payload)` (app.py lines 99-108). -/
def extract_body (p : Payload) : Except PyErr String :=
  match p.parts with
  | some ps =>
    match scanParts ps with
    | .error e => .error e
    | .ok (some s) => .ok s
    | .ok none => topLevelBody p
  | none => topLevelBody p

/-- The `data` string the spec's search would decode for a found part;
absent body or data decode as the empty string. -/
def partData (b : Option PartBody) : String :=
  (b.map (fun pb => pb.data.getD "")).getD ""

/-- Follows the spec wording for claim C2, not the source: depth-first,
left-to-right search of a payload forest for the first `text/plain` part
at any depth, returning its `data`. -/
def dfsScan : List Payload → Option String
  | [] => none
  | Payload.mk mt b ps _hs :: rest =>
    if mt = some "text/plain" then some (partData b)
    else
      match ps with
      | none => dfsScan rest
      | some children =>
        match dfsScan children with
        | some d => some d
        | none => dfsScan rest

/-- Follows the spec wording for claim C2, not the source: decode the
base64url data of the first `text/plain` part found by depth-first search
of the payload's part tree; empty string if no such part exists. -/
def extract_body_dfs (p : Payload) : Except PyErr String :=
  match dfsScan [p] with
  | some d => decodeB64Utf8 d
  | none => .ok ""

/-! ### The HTTP surface (app.py lines 117-157) -/

/-- The JSON responses the handlers produce. -/
inductive Resp where
  | errorMsg (msg : String)
  | predictRes (r : PredictResult)
  | fetchRes (email_snippet : String) (body_prediction : PredictResult)
             (sender_info : SenderAnalysis)
deriving DecidableEq, Repr

/-- `POST /predict` handler (app.py lines 117-126).  `data` is the parsed
JSON body as an optional string-valued dictionary (`none` when no JSON
body is available); `classifier` abstracts the loaded model behind
`predict_body`.  `if not data or "text" not in data` rejects a missing
body, the empty (falsy) dictionary, and a dictionary without `"text"`. -/
def predict_route (classifier : String → PredictResult)
    (data : Option (List (String × String))) : ℕ × Resp :=
  match data with
  | none => (400, .errorMsg "No text provided")
  | some kvs =>
    if kvs = [] then (400, .errorMsg "No text provided")
    else
      match kvs.lookup "text" with
      | none => (400, .errorMsg "No text provided")
      | some text => (200, .predictRes (classifier text))

/-- A Gmail message as returned by `messages().get`: an optional snippet
and an optional payload. -/
structure PyMsg where
  snippet : Option String
  payload : Option Payload

/-- The external collaborators used by `/fetch_gmail`: authentication
(`get_gmail_service`), the unread-message listing, and the per-id message
fetch.  Each can raise. -/
structure GmailService where
  auth : Except PyErr Unit
  listUnread : Except PyErr (List String)
  getMsg : String → Except PyErr PyMsg

/-- `html.unescape(snippet)[:80] + "..."`, with the stdlib `html.unescape`
abstracted as a parameter. -/
def htmlPreview (unescape : String → String) (snippet : String) : String :=
  String.mk ((unescape snippet).data.take 80) ++ "..."

/-- The body of the `try:` block of `fetch_gmail` (app.py lines 131-154),
propagating every raised exception. -/
def fetch_gmail_run (svc : GmailService)
    (classifier : String → Except PyErr PredictResult)
    (unescape : String → String) : Except PyErr (ℕ × Resp) := do
  let _ ← svc.auth
  let messages ← svc.listUnread
  match messages with
  | [] => return (404, Resp.errorMsg "No unread emails found")
  | msgId :: _ =>
    let msg ← svc.getMsg msgId
    let snippet := msg.snippet.getD ""
    let headers ←
      match msg.payload with
      | none => Except.error (PyErr.keyError "payload")
      | some pl => pure (pl.headers.getD [])
    let bodyText ← extract_body (msg.payload.getD (Payload.mk none none none none))
    let senderInfo := analyze_sender headers
    let bodyResult ← classifier (if bodyText = "" then snippet else bodyText)
    return (200, Resp.fetchRes (htmlPreview unescape snippet) bodyResult senderInfo)

/-- `GET /fetch_gmail` handler (app.py lines 128-157): the `try` body with
the blanket `except Exception as e: return jsonify({"error": str(e)}), 500`. -/
def fetch_gmail (svc : GmailService)
    (classifier : String → Except PyErr PredictResult)
    (unescape : String → String) : ℕ × Resp :=
  match fetch_gmail_run svc classifier unescape with
  | .ok r => r
  | .error e => (500, .errorMsg e.toMsg)

/-! ## Helper lemmas -/

theorem le_roundHalfEven (q : ℚ) : ⌊q⌋ ≤ roundHalfEven q := by
  unfold roundHalfEven
  split
  · omega
  split
  · omega
  split <;> omega

theorem roundHalfEven_le_floor_succ (q : ℚ) : roundHalfEven q ≤ ⌊q⌋ + 1 := by
  unfold roundHalfEven
  split
  · omega
  split
  · omega
  split <;> omega

theorem roundHalfEven_nonneg (q : ℚ) (h : 0 ≤ q) : 0 ≤ roundHalfEven q := by
  have h1 : (0:ℤ) ≤ ⌊q⌋ := Int.floor_nonneg.mpr h
  have h2 := le_roundHalfEven q
  omega

theorem roundHalfEven_le (q : ℚ) (n : ℤ) (h : q ≤ n) : roundHalfEven q ≤ n := by
  have hfl : ⌊q⌋ ≤ n := by
    have h2 := Int.floor_le_floor h
    simpa using h2
  rcases eq_or_lt_of_le hfl with heq | hlt
  · have hq : (n:ℚ) ≤ q := by
      rw [← heq]
      exact Int.floor_le q
    have hqe : q = (n:ℚ) := le_antisymm h hq
    have hfrac : q - ⌊q⌋ < 1/2 := by
      rw [hqe]
      simp
    unfold roundHalfEven
    rw [if_pos hfrac]
    exact hfl
  · have := roundHalfEven_le_floor_succ q
    omega

theorem pyRound2_nonneg (q : ℚ) (h : 0 ≤ q) : 0 ≤ pyRound2 q := by
  unfold pyRound2
  have h1 := roundHalfEven_nonneg (q * 100) (by positivity)
  exact div_nonneg (by exact_mod_cast h1) (by norm_num)

theorem pyRound2_le_100 (q : ℚ) (h : q ≤ 100) : pyRound2 q ≤ 100 := by
  unfold pyRound2
  have h1 : q * 100 ≤ ((10000:ℤ):ℚ) := by push_cast; linarith
  have h2 := roundHalfEven_le (q * 100) 10000 h1
  rw [div_le_iff₀ (by norm_num : (0:ℚ) < 100)]
  calc ((roundHalfEven (q * 100)):ℚ) ≤ 10000 := by exact_mod_cast h2
    _ = 100 * 100 := by norm_num

/-! ## Claims -/

/-- **C1.** For every softmax probability pair (nonnegative entries summing
to 1, which `torch.softmax` guarantees for the two output logits),
`predict_body` returns a label in {Legitimate, Phishing} chosen as the
argmax, and a confidence equal to the probability of that chosen
(max-probability) label multiplied by 100 and rounded to 2 decimal
places — hence always in [0, 100] and never the raw positive-class
probability. -/
theorem predict_body_spec (p0 p1 : ℚ) (h0 : 0 ≤ p0) (h1 : 0 ≤ p1)
    (hsum : p0 + p1 = 1) :
    ((predict_body p0 p1).prediction = "Legitimate" ∨
      (predict_body p0 p1).prediction = "Phishing")
    ∧ (predict_body p0 p1).confidence = pyRound2 (max p0 p1 * 100)
    ∧ 0 ≤ (predict_body p0 p1).confidence
    ∧ (predict_body p0 p1).confidence ≤ 100 := by
  have hmax : probGet p0 p1 (argmax2 p0 p1) = max p0 p1 := by
    unfold argmax2 probGet
    by_cases hc : p0 < p1
    · simp [hc, max_eq_right (le_of_lt hc)]
    · simp [hc, max_eq_left (le_of_not_lt hc)]
  have hge : 0 ≤ max p0 p1 := le_trans h0 (le_max_left p0 p1)
  have hle : max p0 p1 ≤ 1 := max_le (by linarith) (by linarith)
  refine ⟨?_, ?_, ?_, ?_⟩
  · by_cases hi : argmax2 p0 p1 = 0
    · left
      show LABEL_MAP (argmax2 p0 p1) = "Legitimate"
      simp [LABEL_MAP, hi]
    · right
      show LABEL_MAP (argmax2 p0 p1) = "Phishing"
      simp [LABEL_MAP, hi]
  · show pyRound2 (probGet p0 p1 (argmax2 p0 p1) * 100) = pyRound2 (max p0 p1 * 100)
    rw [hmax]
  · show 0 ≤ pyRound2 (probGet p0 p1 (argmax2 p0 p1) * 100)
    rw [hmax]
    exact pyRound2_nonneg _ (mul_nonneg hge (by norm_num))
  · show pyRound2 (probGet p0 p1 (argmax2 p0 p1) * 100) ≤ 100
    rw [hmax]
    refine pyRound2_le_100 _ ?_
    calc max p0 p1 * 100 ≤ 1 * 100 := by nlinarith
      _ = 100 := by norm_num

/-- Witness for C1 at the concrete softmax output (0, 1). -/
theorem predict_body_spec_witness :
    ((predict_body 0 1).prediction = "Legitimate" ∨
      (predict_body 0 1).prediction = "Phishing")
    ∧ (predict_body 0 1).confidence = pyRound2 (max 0 1 * 100)
    ∧ 0 ≤ (predict_body 0 1).confidence
    ∧ (predict_body 0 1).confidence ≤ 100 :=
  predict_body_spec 0 1 (le_refl 0) zero_le_one (zero_add 1)

/-- **C4.** `analyze_sender` is a pure function of its header list —
identical headers always produce identical output — and its flags list is
never empty: whenever no rule fires, the result is exactly the
single-element sentinel `["None"]`. -/
theorem analyze_sender_pure_nonempty (headers : List Header) :
    analyze_sender headers = analyze_sender headers
    ∧ (analyze_sender headers).flags ≠ []
    ∧ (senderFlags (analyze_sender headers).domain = [] →
        (analyze_sender headers).flags = ["None"]) := by
  refine ⟨rfl, ?_, ?_⟩
  · show flagsOfDomain (extractDomain (extractEmail (fromValue headers))) ≠ []
    unfold flagsOfDomain
    split
    · simp
    · next h => exact h
  · intro h
    have h2 : senderFlags (extractDomain (extractEmail (fromValue headers))) = [] := h
    show flagsOfDomain (extractDomain (extractEmail (fromValue headers))) = ["None"]
    unfold flagsOfDomain
    rw [if_pos h2]

/-- Witness for C4 on the empty header list, where no rule fires. -/
theorem analyze_sender_pure_nonempty_witness :
    (analyze_sender ([] : List Header)).flags = ["None"] :=
  (analyze_sender_pure_nonempty []).2.2 (by decide)

/-- **C6.** Domain `mail.paypa1.com` is flagged as possible typosquatting;
domain `foo.bar.baz.qux.xyz` gets both the suspicious-TLD and the
too-many-subdomains flag (rules accumulate); domain `github.com` gets the
whitelist marker and no suspicion flag. -/
theorem analyze_sender_examples :
    "Possible typosquatting" ∈ (analyze_sender [⟨"From", "x@mail.paypa1.com"⟩]).flags
    ∧ "Suspicious TLD" ∈ (analyze_sender [⟨"From", "y@foo.bar.baz.qux.xyz"⟩]).flags
    ∧ "Too many subdomains" ∈ (analyze_sender [⟨"From", "y@foo.bar.baz.qux.xyz"⟩]).flags
    ∧ "✅ Whitelisted domain" ∈ (analyze_sender [⟨"From", "z@github.com"⟩]).flags
    ∧ "Possible typosquatting" ∉ (analyze_sender [⟨"From", "z@github.com"⟩]).flags
    ∧ "Suspicious TLD" ∉ (analyze_sender [⟨"From", "z@github.com"⟩]).flags
    ∧ "Too many subdomains" ∉ (analyze_sender [⟨"From", "z@github.com"⟩]).flags := by
  decide

theorem takeWhile_append_one (p : Char → Bool) (l : List Char) (x : Char) :
    (l ++ [x]).takeWhile p =
      if l.takeWhile p = l then l ++ (if p x then [x] else []) else l.takeWhile p := by
  induction l with
  | nil => simp [List.takeWhile_cons]
  | cons y l ih =>
    by_cases hp : p y
    · by_cases hc : l.takeWhile p = l
      · simp [List.takeWhile_cons, hp, hc, ih]
      · simp [List.takeWhile_cons, hp, hc, ih]
    · simp [List.takeWhile_cons, hp]

theorem splitOnChar_ne_nil (c : Char) (l : List Char) : splitOnChar c l ≠ [] := by
  cases l with
  | nil => simp [splitOnChar]
  | cons x xs =>
    simp only [splitOnChar]
    split
    · simp
    · split <;> simp

theorem splitOnChar_not_mem (c : Char) (l : List Char) (h : c ∉ l) :
    splitOnChar c l = [l] := by
  induction l with
  | nil => rfl
  | cons x xs ih =>
    simp only [List.mem_cons, not_or] at h
    have hx : ¬(x = c) := fun he => h.1 he.symm
    simp only [splitOnChar, if_neg hx, ih h.2]

theorem splitOnChar_two_le_length (c : Char) (l : List Char) (h : c ∈ l) :
    2 ≤ (splitOnChar c l).length := by
  induction l with
  | nil => simp at h
  | cons x xs ih =>
    by_cases hx : x = c
    · have h1 : 0 < (splitOnChar c xs).length :=
        List.length_pos.mpr (splitOnChar_ne_nil c xs)
      simp only [splitOnChar, if_pos hx, List.length_cons]
      omega
    · have hmem : c ∈ xs := by
        rcases List.mem_cons.mp h with h1 | h1
        · exact absurd h1.symm hx
        · exact h1
      have h2 := ih hmem
      simp only [splitOnChar, if_neg hx]
      rcases hr : splitOnChar c xs with _ | ⟨hh, tt⟩
      · exact absurd hr (splitOnChar_ne_nil c xs)
      · rw [hr] at h2
        simp only [List.length_cons] at h2 ⊢
        omega

theorem getLastD_indep {α : Type} (l : List α) (h : l ≠ []) (a b : α) :
    l.getLastD a = l.getLastD b := by
  cases l with
  | nil => exact absurd rfl h
  | cons x xs => rw [List.getLastD_cons, List.getLastD_cons]

theorem splitOnChar_getLastD (c : Char) (l : List Char) :
    (splitOnChar c l).getLastD [] =
      (l.reverse.takeWhile (fun x => x != c)).reverse := by
  induction l with
  | nil => simp [splitOnChar]
  | cons x xs ih =>
    rw [List.reverse_cons, takeWhile_append_one]
    by_cases hx : x = c
    · have hpx : (x != c) = false := by simp [hx]
      rw [show splitOnChar c (x :: xs) = [] :: splitOnChar c xs from by
            simp [splitOnChar, hx]]
      rw [List.getLastD_cons, ih, hpx]
      by_cases hc : xs.reverse.takeWhile (fun y => y != c) = xs.reverse
      · rw [if_pos hc]
        simp [hc]
      · rw [if_neg hc]
    · have hpx : (x != c) = true := by simp [hx]
      simp only [splitOnChar, if_neg hx]
      rcases hr : splitOnChar c xs with _ | ⟨hh, tt⟩
      · exact absurd hr (splitOnChar_ne_nil c xs)
      rcases tt with _ | ⟨t1, ts⟩
      · have hnm : c ∉ xs := by
          intro hmem
          have h2 := splitOnChar_two_le_length c xs hmem
          rw [hr] at h2
          simp at h2
        have hall : xs.reverse.takeWhile (fun y => y != c) = xs.reverse := by
          rw [List.takeWhile_eq_self_iff]
          intro a ha
          have ha2 : a ∈ xs := List.mem_reverse.mp ha
          simp only [bne_iff_ne, ne_eq]
          intro he
          exact hnm (he ▸ ha2)
        have hih : hh = xs := by
          have h3 := ih
          rw [hr] at h3
          simp only [List.getLastD_cons, List.getLastD_nil] at h3
          rw [hall, List.reverse_reverse] at h3
          exact h3
        rw [if_pos hall, hpx]
        simp [hih]
      · have hmem : c ∈ xs := by
          by_contra hnm
          have h2 := splitOnChar_not_mem c xs hnm
          rw [hr] at h2
          simp at h2
        have hne : xs.reverse.takeWhile (fun y => y != c) ≠ xs.reverse := by
          intro heq
          have hall := List.takeWhile_eq_self_iff.mp heq
          have h4 := hall c (List.mem_reverse.mpr hmem)
          simp at h4
        rw [if_neg hne]
        have h5 : ((x :: hh) :: t1 :: ts).getLastD [] = (t1 :: ts).getLastD (x :: hh) :=
          List.getLastD_cons ..
        have h6 : (hh :: t1 :: ts).getLastD [] = (t1 :: ts).getLastD hh :=
          List.getLastD_cons ..
        have h7 : (t1 :: ts).getLastD (x :: hh) = (t1 :: ts).getLastD hh :=
          getLastD_indep _ (by simp) _ _
        have hihr := ih
        rw [hr] at hihr
        rw [h5, h7, ← h6, hihr]

/-- **C5.** `analyze_sender` takes the value of the header named `From`
matched case-insensitively (empty string if absent, first match
otherwise), uses the address inside angle brackets if present and
otherwise the raw value, and sets domain to the substring after the last
`@` lowercased, or `"unknown"` when the address contains no `@`. -/
theorem analyze_sender_from_and_domain (headers : List Header) :
    ((∀ h ∈ headers, pyLower h.name ≠ "from") → fromValue headers = "")
    ∧ (∀ pre h post, headers = pre ++ h :: post → pyLower h.name = "from" →
        (∀ g ∈ pre, pyLower g.name ≠ "from") → fromValue headers = h.value)
    ∧ (analyze_sender headers).sender = extractEmail (fromValue headers)
    ∧ ((extractEmail (fromValue headers)).data.contains '@' →
        (analyze_sender headers).domain =
          pyLower (String.mk
            (((extractEmail (fromValue headers)).data.reverse.takeWhile
                (fun x => x != '@')).reverse)))
    ∧ (¬(extractEmail (fromValue headers)).data.contains '@' →
        (analyze_sender headers).domain = "unknown") := by
  refine ⟨?_, ?_, rfl, ?_, ?_⟩
  · intro h
    unfold fromValue
    rw [List.find?_eq_none.mpr]
    intro x hx
    simpa using h x hx
  · intro pre h post hsplit hfrom hpre
    unfold fromValue
    subst hsplit
    rw [List.find?_append]
    have hpre2 : List.find? (fun hd => pyLower hd.name == "from") pre = none := by
      rw [List.find?_eq_none]
      intro x hx
      simpa using hpre x hx
    rw [hpre2]
    simp [List.find?_cons, hfrom]
  · intro hat
    show extractDomain (extractEmail (fromValue headers)) = _
    unfold extractDomain
    rw [if_pos hat, splitOnChar_getLastD]
  · intro hat
    show extractDomain (extractEmail (fromValue headers)) = "unknown"
    unfold extractDomain
    rw [if_neg hat]

/-- Witness for C5 on a two-header list whose second header is `From`. -/
theorem analyze_sender_from_and_domain_witness :
    fromValue [Header.mk "X-Mailer" "m", Header.mk "From" "a <u@Ex.Com>"] = "a <u@Ex.Com>"
    ∧ (analyze_sender [Header.mk "X-Mailer" "m", Header.mk "From" "a <u@Ex.Com>"]).domain =
        pyLower (String.mk
          (((extractEmail (fromValue [Header.mk "X-Mailer" "m",
              Header.mk "From" "a <u@Ex.Com>"])).data.reverse.takeWhile
              (fun x => x != '@')).reverse)) :=
  ⟨(analyze_sender_from_and_domain _).2.1 [Header.mk "X-Mailer" "m"]
      (Header.mk "From" "a <u@Ex.Com>") [] rfl (by decide) (by decide),
    (analyze_sender_from_and_domain _).2.2.2.1 (by decide)⟩

theorem marker_mem_whitelist (d : String)
    (h : "✅ Whitelisted domain" ∈ flagsOfDomain d) : d ∈ whitelist := by
  unfold flagsOfDomain at h
  split at h
  · simp at h
  · unfold senderFlags at h
    simp only [List.mem_append] at h
    rcases h with ((h | h) | h) | h
    · split at h <;> simp_all
    · split at h <;> simp_all
    · split at h <;> simp_all
    · split at h
      · next hw => simpa using hw
      · simp at h

theorem whitelisted_flags (d : String) (hd : d ∈ whitelist) :
    flagsOfDomain d = ["✅ Whitelisted domain"] := by
  simp only [whitelist, List.mem_cons, List.not_mem_nil, or_false] at hd
  rcases hd with rfl | rfl | rfl | rfl | rfl <;> decide

/-- Counterexample for C7: no header input can put the whitelist marker and
a suspicion flag in the output together, because none of the five
whitelisted domains matches any suspicion rule. -/
theorem whitelist_suspicion_coexist_cex :
    ¬ ∃ headers : List Header,
        "✅ Whitelisted domain" ∈ (analyze_sender headers).flags ∧
        ("Possible typosquatting" ∈ (analyze_sender headers).flags ∨
         "Suspicious TLD" ∈ (analyze_sender headers).flags ∨
         "Too many subdomains" ∈ (analyze_sender headers).flags) := by
  rintro ⟨hs, hmark, hsusp⟩
  have hfl : (analyze_sender hs).flags =
      flagsOfDomain (extractDomain (extractEmail (fromValue hs))) := rfl
  rw [hfl] at hmark hsusp
  have hw := marker_mem_whitelist _ hmark
  rw [whitelisted_flags _ hw] at hsusp
  rcases hsusp with h | h | h <;>
    · rw [List.mem_singleton] at h
      exact absurd h (by decide)

/-- **C7 (amended).** Whitelist and suspicion flags never co-occur in
`analyze_sender`'s output: whenever the flags contain the
whitelisted-domain marker, they contain no suspicion flag.  (The claimed
input exhibiting both does not exist for the fixed rule sets in the
source.) -/
theorem whitelist_excludes_suspicion (headers : List Header)
    (h : "✅ Whitelisted domain" ∈ (analyze_sender headers).flags) :
    "Possible typosquatting" ∉ (analyze_sender headers).flags
    ∧ "Suspicious TLD" ∉ (analyze_sender headers).flags
    ∧ "Too many subdomains" ∉ (analyze_sender headers).flags := by
  have hfl : (analyze_sender headers).flags =
      flagsOfDomain (extractDomain (extractEmail (fromValue headers))) := rfl
  rw [hfl] at h ⊢
  have hw := marker_mem_whitelist _ h
  rw [whitelisted_flags _ hw]
  refine ⟨?_, ?_, ?_⟩ <;>
    · rw [List.mem_singleton]
      decide

/-- Witness for the amended C7 at a whitelisted `github.com` sender. -/
theorem whitelist_excludes_suspicion_witness :
    "Possible typosquatting" ∉ (analyze_sender [Header.mk "From" "z@github.com"]).flags
    ∧ "Suspicious TLD" ∉ (analyze_sender [Header.mk "From" "z@github.com"]).flags
    ∧ "Too many subdomains" ∉ (analyze_sender [Header.mk "From" "z@github.com"]).flags :=
  whitelist_excludes_suspicion [Header.mk "From" "z@github.com"] (by decide)

theorem scanParts_append_skip (pre rest : List Payload)
    (hpre : ∀ r ∈ pre, ∃ m, r.mimeType = some m ∧ m ≠ "text/plain") :
    scanParts (pre ++ rest) = scanParts rest := by
  induction pre with
  | nil => rfl
  | cons r pre ih =>
    obtain ⟨m, hm, hne⟩ := hpre r (List.mem_cons_self ..)
    simp only [List.cons_append, scanParts, hm]
    rw [if_neg hne]
    exact ih (fun s hs => hpre s (List.mem_cons_of_mem _ hs))

theorem scanParts_no_plain (ps : List Payload)
    (h : ∀ r ∈ ps, ∃ m, r.mimeType = some m ∧ m ≠ "text/plain") :
    scanParts ps = .ok none := by
  have h2 := scanParts_append_skip ps [] h
  simpa using h2

theorem extract_body_skip_all (p : Payload) (ps : List Payload)
    (hps : p.parts = some ps)
    (hall : ∀ r ∈ ps, ∃ m, r.mimeType = some m ∧ m ≠ "text/plain") :
    extract_body p = topLevelBody p := by
  unfold extract_body
  simp only [hps, scanParts_no_plain ps hall]

theorem extract_body_parts_absent (p : Payload) (hps : p.parts = none) :
    extract_body p = topLevelBody p := by
  unfold extract_body
  simp only [hps]

/-- Counterexample for C2: on a payload whose only `text/plain` part sits
one level below the top-level parts, `extract_body` returns `""` (it only
examines the top-level parts list), while the claimed depth-first search
would return the decoded nested data `"hello"`. -/
theorem extract_body_not_dfs_cex :
    extract_body (Payload.mk (some "multipart/mixed") none
        (some [Payload.mk (some "multipart/alternative") none
          (some [Payload.mk (some "text/plain")
            (some (PartBody.mk (some "aGVsbG8="))) none none]) none]) none) =
      .ok ""
    ∧ extract_body_dfs (Payload.mk (some "multipart/mixed") none
        (some [Payload.mk (some "multipart/alternative") none
          (some [Payload.mk (some "text/plain")
            (some (PartBody.mk (some "aGVsbG8="))) none none]) none]) none) =
      .ok "hello"
    ∧ (Except.ok "" : Except PyErr String) ≠ .ok "hello" := by
  refine ⟨rfl, ?_, by simp⟩
  rw [extract_body_dfs]
  rw [show dfsScan [Payload.mk (some "multipart/mixed") none
        (some [Payload.mk (some "multipart/alternative") none
          (some [Payload.mk (some "text/plain")
            (some (PartBody.mk (some "aGVsbG8="))) none none]) none]) none] =
      some "aGVsbG8=" from by simp [dfsScan, partData]]
  rfl

/-- **C2 (amended).** `extract_body` searches only the top-level parts
list, not the whole tree: with `parts` present, the first top-level part
whose `mimeType` is `text/plain` (all earlier parts carrying some other
present `mimeType`) supplies the result, namely its base64url `data`
decoded as UTF-8 (`KeyError` if it has no `body`); if every top-level part
carries a present `mimeType` other than `text/plain` — even when a nested
part is `text/plain` — or if the `parts` key is absent, the result is the
top-level fallback: the decoded top-level body data when present,
otherwise the empty string. -/
theorem extract_body_top_level (p : Payload) :
    (∀ ps pre q post, p.parts = some ps → ps = pre ++ q :: post →
      (∀ r ∈ pre, ∃ m, r.mimeType = some m ∧ m ≠ "text/plain") →
      q.mimeType = some "text/plain" →
      extract_body p =
        (match q.body with
          | none => Except.error (PyErr.keyError "body")
          | some pb => decodeB64Utf8 (pb.data.getD "")))
    ∧ (∀ ps, p.parts = some ps →
        (∀ r ∈ ps, ∃ m, r.mimeType = some m ∧ m ≠ "text/plain") →
        extract_body p = topLevelBody p)
    ∧ (p.parts = none → extract_body p = topLevelBody p) := by
  refine ⟨?_, ?_, ?_⟩
  · intro ps pre q post hps hsplit hpre hq
    unfold extract_body
    simp only [hps, hsplit]
    rw [scanParts_append_skip pre _ hpre]
    simp only [scanParts, hq, if_true]
    rcases hb : q.body with _ | pb
    · rfl
    · rcases hd : decodeB64Utf8 (pb.data.getD "") with e | s <;> simp [hd, Except.map]
  · exact fun ps hps hall => extract_body_skip_all p ps hps hall
  · exact fun hps => extract_body_parts_absent p hps

/-- Witness for the amended C2 at a payload with a single top-level
`text/plain` part. -/
theorem extract_body_top_level_witness :
    extract_body (Payload.mk (some "multipart/mixed") none
        (some [Payload.mk (some "text/plain")
          (some (PartBody.mk (some "aGVsbG8="))) none none]) none) =
      (match (Payload.mk (some "text/plain")
          (some (PartBody.mk (some "aGVsbG8="))) none none).body with
        | none => Except.error (PyErr.keyError "body")
        | some pb => decodeB64Utf8 (pb.data.getD "")) :=
  (extract_body_top_level (Payload.mk (some "multipart/mixed") none
      (some [Payload.mk (some "text/plain")
        (some (PartBody.mk (some "aGVsbG8="))) none none]) none)).1
    [Payload.mk (some "text/plain") (some (PartBody.mk (some "aGVsbG8="))) none none]
    []
    (Payload.mk (some "text/plain") (some (PartBody.mk (some "aGVsbG8="))) none none)
    [] rfl rfl (by simp) rfl

/-- Counterexample for C3: `extract_body` does raise on some payloads —
here `binascii.Error` from `base64.urlsafe_b64decode` on a `text/plain`
part whose `data` is the one-character base64 string `"A"`. -/
theorem extract_body_raises_cex :
    extract_body (Payload.mk none none
        (some [Payload.mk (some "text/plain")
          (some (PartBody.mk (some "A"))) none none]) none) =
      .error (.binasciiError
        "Invalid base64-encoded string: number of data characters cannot be 1 more than a multiple of 4") :=
  rfl

/-- **C3 (amended).** `extract_body` returns `.ok ""` — no exception — on
every payload whose top-level parts all carry a present `mimeType` other
than `text/plain` (or whose `parts` key is absent) and whose top-level
body carries no `data`; and the UTF-8 stage is total: bytes that are not
valid UTF-8 are dropped rather than raising, so any successfully
base64-decoded data yields an `.ok` string.  (`extract_body` can still
raise, e.g. on malformed base64 data or a part missing the `mimeType` or
`body` key.) -/
theorem extract_body_safe_cases (p : Payload) :
    ((∀ ps, p.parts = some ps → ∀ r ∈ ps, ∃ m, r.mimeType = some m ∧ m ≠ "text/plain") →
     (∀ pb, p.body = some pb → pb.data = none) →
     extract_body p = .ok "")
    ∧ (∀ d bs, urlsafe_b64decode d = .ok bs →
        decodeB64Utf8 d = .ok (String.mk (utf8DecodeIgnore bs))) := by
  constructor
  · intro hparts hbody
    have htl : topLevelBody p = .ok "" := by
      unfold topLevelBody
      rcases hb : p.body with _ | pb
      · rfl
      · simp [hbody pb hb]
    rcases hp : p.parts with _ | ps
    · exact (extract_body_parts_absent p hp).trans htl
    · exact (extract_body_skip_all p ps hp (hparts ps hp)).trans htl
  · intro d bs h
    unfold decodeB64Utf8
    rw [h]
    rfl

/-- Witness for the amended C3 at a payload with an html-only part list,
a dataless top-level body, and undecodable bytes for the UTF-8 stage. -/
theorem extract_body_safe_cases_witness :
    extract_body (Payload.mk none (some (PartBody.mk none))
        (some [Payload.mk (some "text/html") none none none]) none) = .ok ""
    ∧ decodeB64Utf8 "_w==" = .ok (String.mk (utf8DecodeIgnore [255])) :=
  ⟨(extract_body_safe_cases _).1
      (by
        intro ps hps r hr
        have hps2 : ps = [Payload.mk (some "text/html") none none none] :=
          (Option.some.inj hps).symm
        subst hps2
        rcases List.mem_singleton.mp hr with rfl
        exact ⟨"text/html", rfl, by decide⟩)
      (by
        intro pb hpb
        have hpb2 : pb = PartBody.mk none := (Option.some.inj hpb).symm
        subst hpb2
        rfl),
    (extract_body_safe_cases (Payload.mk none none none none)).2 "_w==" [255] rfl⟩

/-- **C8.** `POST /predict`: a missing JSON body, an empty (falsy) body,
or a body without a `"text"` field yields
`400 {"error": "No text provided"}` with the classifier never invoked
(the response is the same for every classifier); a body containing
`"text"` yields 200 with the classification result. -/
theorem predict_route_spec (c : String → PredictResult)
    (data : Option (List (String × String))) :
    ((data = none ∨ data = some [] ∨
        (∀ kvs, data = some kvs → kvs.lookup "text" = none)) →
      predict_route c data = (400, Resp.errorMsg "No text provided")
      ∧ ∀ c2, predict_route c2 data = predict_route c data)
    ∧ (∀ kvs t, data = some kvs → kvs.lookup "text" = some t →
        predict_route c data = (200, Resp.predictRes (c t))) := by
  constructor
  · intro h
    have hgen : ∀ c3 : String → PredictResult,
        predict_route c3 data = (400, Resp.errorMsg "No text provided") := by
      intro c3
      rcases data with _ | kvs
      · rfl
      · rcases h with h | h | h
        · exact absurd h (by simp)
        · have hk : kvs = [] := Option.some.inj h
          subst hk
          rfl
        · have hl := h kvs rfl
          unfold predict_route
          by_cases hk : kvs = []
          · subst hk
            rfl
          · simp [hk, hl]
    exact ⟨hgen c, fun c2 => (hgen c2).trans (hgen c).symm⟩
  · intro kvs t hdata hl
    subst hdata
    have hk : kvs ≠ [] := by
      intro hk
      subst hk
      simp [List.lookup] at hl
    unfold predict_route
    simp [hk, hl]

/-- Witness for C8: a missing body is rejected, a body carrying `"text"`
is classified. -/
theorem predict_route_spec_witness :
    predict_route (fun _ => PredictResult.mk "Phishing" 99) none =
      (400, Resp.errorMsg "No text provided")
    ∧ predict_route (fun _ => PredictResult.mk "Phishing" 99)
        (some [("text", "hello")]) =
      (200, Resp.predictRes ((fun _ => PredictResult.mk "Phishing" 99) "hello")) :=
  ⟨((predict_route_spec (fun _ => PredictResult.mk "Phishing" 99) none).1 (Or.inl rfl)).1,
    (predict_route_spec (fun _ => PredictResult.mk "Phishing" 99)
        (some [("text", "hello")])).2 [("text", "hello")] "hello" rfl rfl⟩

/-- **C9.** When authentication succeeds and the mail API reports zero
unread messages, `GET /fetch_gmail` returns
`404 {"error": "No unread emails found"}` and makes no classification
call: the response is the same for every classifier. -/
theorem fetch_gmail_no_unread (svc : GmailService)
    (classifier : String → Except PyErr PredictResult)
    (unescape : String → String)
    (hauth : svc.auth = .ok ()) (hlist : svc.listUnread = .ok []) :
    fetch_gmail svc classifier unescape = (404, Resp.errorMsg "No unread emails found")
    ∧ ∀ c2, fetch_gmail svc c2 unescape = fetch_gmail svc classifier unescape := by
  have hgen : ∀ c3, fetch_gmail svc c3 unescape =
      (404, Resp.errorMsg "No unread emails found") := by
    intro c3
    unfold fetch_gmail fetch_gmail_run
    rw [hauth, hlist]
    rfl
  exact ⟨hgen classifier, fun c2 => (hgen c2).trans (hgen classifier).symm⟩

/-- Witness for C9 at a service with an empty unread list. -/
theorem fetch_gmail_no_unread_witness :
    fetch_gmail
        (GmailService.mk (.ok ()) (.ok []) (fun _ => .error (.keyError "id")))
        (fun _ => .error (.keyError "classifier")) id =
      (404, Resp.errorMsg "No unread emails found") :=
  (fetch_gmail_no_unread
      (GmailService.mk (.ok ()) (.ok []) (fun _ => .error (.keyError "id")))
      (fun _ => .error (.keyError "classifier")) id rfl rfl).1

/-- **C10.** Every exception raised during `GET /fetch_gmail` handling —
authentication, the unread listing, the message fetch, the header access,
body decoding, or classification — is caught at the handler and returned
as `500 {"error": str(e)}`, with no partial result: whichever step fails
first determines the whole response. -/
theorem fetch_gmail_catches (svc : GmailService)
    (classifier : String → Except PyErr PredictResult)
    (unescape : String → String) (e : PyErr) :
    (fetch_gmail_run svc classifier unescape = .error e →
      fetch_gmail svc classifier unescape = (500, Resp.errorMsg e.toMsg))
    ∧ (svc.auth = .error e →
        fetch_gmail svc classifier unescape = (500, Resp.errorMsg e.toMsg))
    ∧ (svc.auth = .ok () → svc.listUnread = .error e →
        fetch_gmail svc classifier unescape = (500, Resp.errorMsg e.toMsg))
    ∧ (∀ mid rest, svc.auth = .ok () → svc.listUnread = .ok (mid :: rest) →
        svc.getMsg mid = .error e →
        fetch_gmail svc classifier unescape = (500, Resp.errorMsg e.toMsg))
    ∧ (∀ mid rest msg, svc.auth = .ok () → svc.listUnread = .ok (mid :: rest) →
        svc.getMsg mid = .ok msg → msg.payload = none →
        fetch_gmail svc classifier unescape =
          (500, Resp.errorMsg (PyErr.keyError "payload").toMsg))
    ∧ (∀ mid rest msg pl, svc.auth = .ok () → svc.listUnread = .ok (mid :: rest) →
        svc.getMsg mid = .ok msg → msg.payload = some pl →
        extract_body pl = .error e →
        fetch_gmail svc classifier unescape = (500, Resp.errorMsg e.toMsg))
    ∧ (∀ mid rest msg pl bodyText, svc.auth = .ok () →
        svc.listUnread = .ok (mid :: rest) →
        svc.getMsg mid = .ok msg → msg.payload = some pl →
        extract_body pl = .ok bodyText →
        classifier (if bodyText = "" then msg.snippet.getD "" else bodyText) = .error e →
        fetch_gmail svc classifier unescape = (500, Resp.errorMsg e.toMsg)) := by
  have hcatch : fetch_gmail_run svc classifier unescape = .error e →
      fetch_gmail svc classifier unescape = (500, Resp.errorMsg e.toMsg) := by
    intro h
    unfold fetch_gmail
    rw [h]
  refine ⟨hcatch, ?_, ?_, ?_, ?_, ?_, ?_⟩
  · intro h
    apply hcatch
    unfold fetch_gmail_run
    rw [h]
    rfl
  · intro hauth h
    apply hcatch
    unfold fetch_gmail_run
    rw [hauth, h]
    rfl
  · intro mid rest hauth hlist h
    apply hcatch
    unfold fetch_gmail_run
    rw [hauth, hlist]
    simp [h, Bind.bind, Except.bind]
  · intro mid rest msg hauth hlist hget hpl
    unfold fetch_gmail fetch_gmail_run
    rw [hauth, hlist]
    simp [hget, hpl, Bind.bind, Except.bind]
  · intro mid rest msg pl hauth hlist hget hpl hext
    apply hcatch
    unfold fetch_gmail_run
    rw [hauth, hlist]
    simp [hget, hpl, hext, Bind.bind, Except.bind, Pure.pure, Except.pure]
  · intro mid rest msg pl bodyText hauth hlist hget hpl hext hcls
    apply hcatch
    unfold fetch_gmail_run
    rw [hauth, hlist]
    simp [hget, hpl, hext, hcls, Bind.bind, Except.bind, Pure.pure, Except.pure]

/-- Witness for C10 at a service whose authentication raises. -/
theorem fetch_gmail_catches_witness :
    fetch_gmail
        (GmailService.mk (.error (.valueError "boom")) (.ok [])
          (fun _ => .error (.keyError "id")))
        (fun _ => .error (.keyError "classifier")) id =
      (500, Resp.errorMsg (PyErr.valueError "boom").toMsg) :=
  (fetch_gmail_catches
      (GmailService.mk (.error (.valueError "boom")) (.ok [])
        (fun _ => .error (.keyError "id")))
      (fun _ => .error (.keyError "classifier")) id
      (.valueError "boom")).2.1 rfl

end App
